import Mathlib

/-!
# OpenSuperWhisper — verification of the specified behaviour

Shallow embedding of the parts of the OpenSuperWhisper code base that the
specification talks about, together with theorems settling the spec's claims.

Conventions of the embedding:
* SQLite timestamps are ISO-format strings whose lexicographic order agrees
  with chronological order; we model them as integer seconds.
* Python real arithmetic (durations, resampling ratios) is modelled exactly
  with `ℚ`; `int(...)` and numpy `astype(np.int16)` both truncate toward
  zero, modelled by `ratTrunc`.
* Fallible operations return the pair (new state, result) or an `Option`.
-/

namespace OSW

/-- Truncation toward zero of a rational, the semantics of Python `int(x)`
and of numpy `astype` from float to a signed integer type (values in range). -/
def ratTrunc (q : ℚ) : Int :=
  Int.tdiv q.num q.den

/-- Python `str.lower()` on the ASCII strings the claims use. -/
def pyLower (s : String) : String :=
  String.mk (s.data.map Char.toLower)

/-- Python `str.strip()` (ASCII whitespace): drop leading and trailing
whitespace. -/
def pyStrip (s : String) : String :=
  String.mk
    (((s.data.dropWhile Char.isWhitespace).reverse.dropWhile
      Char.isWhitespace).reverse)

namespace DB

/-- Row of the `recordings` table (`database.py`, class `Recording`).
`timestamp` is stored as an ISO string; as lexicographic order on those
strings is chronological order, we model it as integer seconds.
`settings` is an opaque JSON string for the purposes of the claims. -/
structure Recording where
  id : String
  timestamp : Int
  filename : String
  transcription : String
  duration : ℚ
  language : String
  model_used : String
  file_size : Int
  settings : String
deriving DecidableEq, Repr

/-- Database state: the list of rows of the `recordings` table, in insertion
order. -/
abbrev Database := List Recording

/-- `RecordingDatabase.cleanup_old_recordings` (`database.py:347-363`):
`cutoff = datetime.now().replace(hour=0, minute=0, second=0, microsecond=0)
- timedelta(days=days)`, then `DELETE FROM recordings WHERE timestamp < ?`
with the cutoff, returning `cursor.rowcount`.  `now` is the current time in
seconds since an epoch that falls on a midnight, so today's midnight is
`now - now % 86400`.  Returns (remaining rows, number of rows deleted). -/
def cleanup_old_recordings (now : Int) (days : Int) (db : Database) :
    Database × Int :=
  let cutoff : Int := (now - now % 86400) - days * 86400
  (db.filter (fun r => !(decide (r.timestamp < cutoff))),
   (db.countP (fun r => decide (r.timestamp < cutoff)) : Int))

/-- `RecordingDatabase.update_recording` (`database.py:250-270`): runs
`UPDATE recordings SET ... WHERE id = ?` with every field of the given
recording and returns `True` without inspecting `cursor.rowcount`. -/
def update_recording (db : Database) (rec : Recording) : Database × Bool :=
  (db.map (fun r => if r.id = rec.id then rec else r), true)

/-- `RecordingDatabase.delete_recording` (`database.py:272-284`): runs
`DELETE FROM recordings WHERE id = ?` and returns `cursor.rowcount > 0`. -/
def delete_recording (db : Database) (recording_id : String) :
    Database × Bool :=
  (db.filter (fun r => !(decide (r.id = recording_id))),
   decide (0 < db.countP (fun r => decide (r.id = recording_id))))

/-- Descending insertion of a row into a list already sorted by `timestamp`
descending (ties keep earlier-inserted rows first). -/
def insertByTimestampDesc (r : Recording) : List Recording → List Recording
  | [] => [r]
  | x :: xs =>
    if x.timestamp < r.timestamp then r :: x :: xs
    else x :: insertByTimestampDesc r xs

/-- `ORDER BY timestamp DESC` over the stored rows. -/
def sortByTimestampDesc (db : Database) : List Recording :=
  db.foldr insertByTimestampDesc []

/-- Python truthiness of the optional integer `limit` argument: `None` and
`0` are falsy, every other integer is truthy. -/
def limitTruthy : Option Int → Bool
  | none => false
  | some l => !(decide (l = 0))

/-- SQLite `LIMIT n OFFSET k` applied to an ordered row list: a negative
limit means "no limit" (the offset still applies). -/
def sqlLimitOffset (l : Int) (offset : Nat) (rows : List Recording) :
    List Recording :=
  let paged := rows.drop offset
  if 0 ≤ l then paged.take l.toNat else paged

/-- `RecordingDatabase.get_all_recordings` (`database.py:184-203`):
`SELECT * FROM recordings ORDER BY timestamp DESC`, appending
`LIMIT ? OFFSET ?` only under `if limit:` (Python truthiness). -/
def get_all_recordings (db : Database) (limit : Option Int := none)
    (offset : Nat := 0) : List Recording :=
  let rows := sortByTimestampDesc db
  match limit with
  | none => rows
  | some l => if l = 0 then rows else sqlLimitOffset l offset rows

/-- Bool-valued infix test on character lists. -/
def charSeqContains (p l : List Char) : Bool :=
  l.tails.any (fun t => p.isPrefixOf t)

/-- SQLite `transcription LIKE '%query%'` for a query without wildcard
characters: case-insensitive (ASCII) substring containment. -/
def likeContains (query s : String) : Bool :=
  charSeqContains (query.data.map Char.toLower) (s.data.map Char.toLower)

/-- Python truthiness of the optional `language` filter: `None` and the
empty string are falsy. -/
def strTruthy : Option String → Bool
  | none => false
  | some s => !(decide (s = ""))

/-- `RecordingDatabase.search_recordings` (`database.py:205-248`): filters by
`transcription LIKE '%query%'`, then by `language = ?`, `timestamp >= ?`,
`timestamp <= ?` — each appended only if the argument is truthy — orders by
timestamp descending and appends `LIMIT ?` only under `if limit:`. -/
def search_recordings (db : Database) (query : String)
    (language : Option String := none) (dateFrom : Option Int := none)
    (dateTo : Option Int := none) (limit : Option Int := none) :
    List Recording :=
  let keep : Recording → Bool := fun r =>
    likeContains query r.transcription
    && (if strTruthy language then decide (r.language = language.getD "") else true)
    && (match dateFrom with
        | none => true
        | some d => decide (d ≤ r.timestamp))
    && (match dateTo with
        | none => true
        | some d => decide (r.timestamp ≤ d))
  let rows := sortByTimestampDesc (db.filter keep)
  match limit with
  | none => rows
  | some l => if l = 0 then rows else sqlLimitOffset l 0 rows

/-- SQL `SUM` over rationals: `NULL` (none) on the empty set. -/
def sqlSumQ (xs : List ℚ) : Option ℚ :=
  if xs.isEmpty then none else some xs.sum

/-- SQL `SUM` over integers: `NULL` (none) on the empty set. -/
def sqlSumZ (xs : List Int) : Option Int :=
  if xs.isEmpty then none else some xs.sum

/-- SQL `AVG`: `NULL` on the empty set, else sum divided by count. -/
def sqlAvg (xs : List ℚ) : Option ℚ :=
  if xs.isEmpty then none else some (xs.sum / xs.length)

/-- SQL `MIN` over the timestamp column. -/
def sqlMin (xs : List Int) : Option Int :=
  match xs with
  | [] => none
  | x :: t => some (t.foldl min x)

/-- SQL `MAX` over the timestamp column. -/
def sqlMax (xs : List Int) : Option Int :=
  match xs with
  | [] => none
  | x :: t => some (t.foldl max x)

/-- Python `value or default` for an optional rational: `None` and `0`
are falsy. -/
def pyOrQ (o : Option ℚ) (d : ℚ) : ℚ :=
  match o with
  | none => d
  | some v => if v = 0 then d else v

/-- Python `value or default` for an optional integer. -/
def pyOrZ (o : Option Int) (d : Int) : Int :=
  match o with
  | none => d
  | some v => if v = 0 then d else v

/-- Result shape of `RecordingDatabase.get_statistics`.  The two `GROUP BY`
result dictionaries are modelled as count functions: a key that the query
excludes (empty string) is sent to 0. -/
structure Stats where
  total_recordings : Nat
  total_duration : ℚ
  total_file_size : Int
  avg_duration : ℚ
  oldest_recording : Option Int
  newest_recording : Option Int
  languages : String → Nat
  models : String → Nat

/-- `RecordingDatabase.get_statistics` (`database.py:297-345`): one aggregate
query (`COUNT(*)`, `SUM(duration)`, `SUM(file_size)`, `AVG(duration)`,
`MIN(timestamp)`, `MAX(timestamp)`), a language distribution
(`GROUP BY language` with `WHERE language IS NOT NULL AND language != ''`)
and a model distribution with the same filter on `model_used`; the numeric
fields pass through Python `row[i] or 0`/`or 0.0` coalescing.  Rows are
inserted through `Recording.to_dict`, so `language`/`model_used` are never
SQL `NULL`; absent values are the empty string. -/
def get_statistics (db : Database) : Stats where
  total_recordings := db.length
  total_duration := pyOrQ (sqlSumQ (db.map (·.duration))) 0
  total_file_size := pyOrZ (sqlSumZ (db.map (·.file_size))) 0
  avg_duration := pyOrQ (sqlAvg (db.map (·.duration))) 0
  oldest_recording := sqlMin (db.map (·.timestamp))
  newest_recording := sqlMax (db.map (·.timestamp))
  languages := fun l =>
    if l = "" then 0 else db.countP (fun r => decide (r.language = l))
  models := fun m =>
    if m = "" then 0 else db.countP (fun r => decide (r.model_used = m))

end DB

namespace Audio

/-- Stereo-to-mono conversion of one interleaved int16 chunk
(`audio_recorder.py:340-342`):
`audio_chunk.reshape(-1, 2).mean(axis=1)` — the exact rational mean of each
consecutive sample pair. -/
def channelMeans : List Int → List ℚ
  | a :: b :: rest => ((a : ℚ) + b) / 2 :: channelMeans rest
  | _ => []

/-- `numpy.linspace(0, stop, num)`: `num` evenly spaced points from `0`
to `stop` inclusive (`num = 1` gives just the start point). -/
def linspace (stop : ℚ) (num : Nat) : List ℚ :=
  if num = 0 then []
  else if num = 1 then [0]
  else (List.range num).map (fun (j : Nat) => (j : ℚ) * stop / ((num : ℚ) - 1))

/-- `numpy.interp(x, arange(len a), a)` for `0 ≤ x ≤ len a - 1`: linear
interpolation between the neighbouring samples. -/
def interpAt (a : List Int) (x : ℚ) : ℚ :=
  let i : Nat := (⌊x⌋).toNat
  if i + 1 < a.length then
    (a.getD i 0 : ℚ) + (x - (i : ℚ)) * ((a.getD (i + 1) 0 : ℚ) - (a.getD i 0 : ℚ))
  else (a.getD i 0 : ℚ)

/-- Target sample rate (`AudioRecorder.SAMPLE_RATE`). -/
def SAMPLE_RATE : Nat := 16000

/-- Target channel count (`AudioRecorder.CHANNELS`). -/
def CHANNELS : Nat := 1

/-- Rate conversion of one mono chunk (`audio_recorder.py:345-351`): when
the negotiated rate differs from the target, compute
`new_length = int(len(chunk) * SAMPLE_RATE / working_rate)` and, when that
is positive, resample at `linspace(0, len(chunk) - 1, new_length)` by linear
interpolation, truncating back to int16; otherwise the chunk is left as
is. -/
def resampleChunk (workingRate : Nat) (chunk : List Int) : List Int :=
  if workingRate = SAMPLE_RATE then chunk
  else if 0 < (ratTrunc ((chunk.length : ℚ) *
      ((SAMPLE_RATE : ℚ) / (workingRate : ℚ)))).toNat then
    (linspace ((chunk.length : ℚ) - 1)
        (ratTrunc ((chunk.length : ℚ) *
          ((SAMPLE_RATE : ℚ) / (workingRate : ℚ)))).toNat).map
      (fun x => ratTrunc (interpAt chunk x))
  else chunk

/-- Per-chunk processing of the pyaudio recording loop
(`audio_recorder.py:336-353`): channel-average when the negotiated working
configuration is stereo while `CHANNELS = 1`, then resample when the
negotiated rate differs from `SAMPLE_RATE`. -/
def convertChunk (workingChannels workingRate : Nat) (chunk : List Int) :
    List Int :=
  resampleChunk workingRate
    (if workingChannels = 2 ∧ CHANNELS = 1 then
      (channelMeans chunk).map ratTrunc
    else chunk)

/-- `AudioRecorder.stop_recording` (`audio_recorder.py:385-431`), data path
only: returns `None` when not recording, when no audio data accumulated, or
when `len(data) / SAMPLE_RATE < 0.5`; otherwise saves the accumulated
samples (via `_save_audio_data`) and returns the recording (its path, which
we identify with the saved sample list). -/
def stop_recording (isRecording : Bool) (audioData : List Int) :
    Option (List Int) :=
  if !isRecording then none
  else if audioData.isEmpty then none
  else if (audioData.length : ℚ) / (SAMPLE_RATE : ℚ) < 1 / 2 then none
  else some audioData

/-- Little-endian byte pair of one int16 sample as written by
`numpy.ndarray.tobytes` inside `_save_audio_data`
(`audio_recorder.py:462-476`). -/
def int16Bytes (v : Int) : List Int :=
  let u := v % 65536
  [u % 256, u / 256]

/-- PCM payload of the WAV file written by `_save_audio_data`: 16-bit mono
little-endian frames, two bytes per sample. -/
def wavPcmBytes (audioData : List Int) : List Int :=
  audioData.flatMap int16Bytes

end Audio

namespace Hotkeys

/-- The `key_mapping` dictionary of `GlobalHotkeyManager._normalize_keys`
(`hotkeys.py:226-251`): modifier and special-key synonyms mapped to their
canonical names. -/
def keyMapping : String → Option String
  | "ctrl" => some "ctrl"
  | "control" => some "ctrl"
  | "shift" => some "shift"
  | "alt" => some "alt"
  | "win" => some "cmd"
  | "cmd" => some "cmd"
  | "super" => some "cmd"
  | "space" => some "space"
  | "enter" => some "enter"
  | "return" => some "enter"
  | "tab" => some "tab"
  | "escape" => some "esc"
  | "esc" => some "esc"
  | "backspace" => some "backspace"
  | "delete" => some "delete"
  | "del" => some "delete"
  | "f1" => some "f1"
  | "f2" => some "f2"
  | "f3" => some "f3"
  | "f4" => some "f4"
  | "f5" => some "f5"
  | "f6" => some "f6"
  | "f7" => some "f7"
  | "f8" => some "f8"
  | "f9" => some "f9"
  | "f10" => some "f10"
  | "f11" => some "f11"
  | "f12" => some "f12"
  | _ => none

/-- Normalization of one key token (`hotkeys.py:253-263`):
`key.lower().strip()`, looked up in the mapping, else passed through when it
is a single alphanumeric character (ASCII model of Python's `isalnum`),
else rejected. -/
def normalizeKey (key : String) : Option String :=
  let kl := pyStrip (pyLower key)
  match keyMapping kl with
  | some v => some v
  | none =>
    match kl.data with
    | [c] => if c.isAlphanum then some kl else none
    | _ => none

/-- The token loop of `_normalize_keys`: `none` as soon as one token is
unknown, otherwise the list of canonical names in order. -/
def normalizeKeysAux : List String → Option (List String)
  | [] => some []
  | k :: rest =>
    match normalizeKey k with
    | none => none
    | some v =>
      match normalizeKeysAux rest with
      | none => none
      | some vs => some (v :: vs)

/-- `GlobalHotkeyManager._normalize_keys` (`hotkeys.py:222-265`): normalizes
every token; the first unknown token makes the whole call return the empty
list. -/
def normalizeKeys (keys : List String) : List String :=
  match normalizeKeysAux keys with
  | some l => l
  | none => []

/-- Registered hotkeys, as the association of hotkey name to normalized key
list (callback and description of `HotkeyConfig` omitted: no claim touches
them). -/
abbrev HotkeyTable := List (String × List String)

/-- `self.hotkeys[name] = hotkey_config`: replace the entry with this name,
or append a new one. -/
def hotkeyUpsert (hk : HotkeyTable) (name : String) (keys : List String) :
    HotkeyTable :=
  if hk.any (fun p => decide (p.1 = name)) then
    hk.map (fun p => if p.1 = name then (name, keys) else p)
  else hk ++ [(name, keys)]

/-- `GlobalHotkeyManager.register_hotkey` (`hotkeys.py:79-114`), with
`PYNPUT_AVAILABLE` assumed true: normalizes the tokens; a falsy (empty)
normalization result fails the registration with nothing stored, otherwise
the normalized chord is stored under the name.  Returns (table, success). -/
def register_hotkey (hk : HotkeyTable) (name : String) (keys : List String) :
    HotkeyTable × Bool :=
  if (normalizeKeys keys).isEmpty then (hk, false)
  else (hotkeyUpsert hk name (normalizeKeys keys), true)

/-- Modelled from the spec: the synonym table exactly as the specification
words it — identical to `keyMapping` except that the spec also lists
`windows` as a synonym of `cmd`.  Used only to exhibit where the code
diverges from the spec. -/
def specKeyMapping (k : String) : Option String :=
  if k = "windows" then some "cmd" else keyMapping k

end Hotkeys

namespace Transcription

/-- State of `TranscriptionService` restricted to the fields the claims
read: the loaded model reference (`some name` when loaded), the configured
model name, the device selection, the transcribing flag and the progress
value. -/
structure TState where
  model : Option String
  model_name : String
  device : String
  is_transcribing : Bool
  progress : ℚ
deriving DecidableEq, Repr

/-- `TranscriptionService.change_model` (`transcription_service.py:108-121`):
rejected while transcribing; a no-op success when the requested model is
already loaded; otherwise drops the model and records the new name (the
spawned loader thread is outside this synchronous transition).  Returns
(state, result). -/
def change_model (s : TState) (name : String) : TState × Bool :=
  if s.is_transcribing then (s, false)
  else if name = s.model_name ∧ s.model.isSome then (s, true)
  else ({ s with model_name := name, model := none }, true)

/-- `TranscriptionService.change_device`
(`transcription_service.py:123-161`): rejected while transcribing; a no-op
success when the device is already in use with a loaded model; otherwise
drops the model and records the new device. -/
def change_device (s : TState) (device : String) : TState × Bool :=
  if s.is_transcribing then (s, false)
  else if device = s.device ∧ s.model.isSome then (s, true)
  else ({ s with device := device, model := none }, true)

/-- `TranscriptionService.transcribe_audio_async`
(`transcription_service.py:168-231`), with the awaited executor call
abstracted to its outcome `result`: raises when already transcribing or when
no model is loaded (state untouched); otherwise sets the flag and
`progress = 0.0`, runs the transcription, sets `progress = 1.0` on success,
re-raises on failure, and in the `finally` block clears `is_transcribing`.
Returns (outcome, final state). -/
def transcribe_audio_async (s : TState) (result : Except String String) :
    Except String String × TState :=
  if s.is_transcribing then (.error "Already transcribing", s)
  else if s.model.isNone then (.error "Model not loaded", s)
  else
    match result with
    | .ok text => (.ok text, { s with is_transcribing := false, progress := 1 })
    | .error e => (.error e, { s with is_transcribing := false, progress := 0 })

end Transcription

namespace Config

/-- JSON-representable setting value. -/
inductive JVal where
  | null
  | bool (b : Bool)
  | num (q : ℚ)
  | str (s : String)
deriving DecidableEq, Repr

/-- The fixed configuration schema: the keys of
`ConfigManager.default_settings` (`config_manager.py:38-57`), in insertion
order. -/
def schemaKeys : List String :=
  ["audio_device", "audio_device_name", "sample_rate", "monitor_audio",
   "noise_reduction", "model", "device", "language", "task", "temperature",
   "record_hotkey", "window_hotkey", "autostart", "system_tray", "theme",
   "auto_cleanup", "window_geometry", "window_position"]

/-- The documented default value of each schema key
(`config_manager.py:38-57`); keys outside the schema never occur in the
settings dictionary, so their value here is immaterial. -/
def defaults : String → JVal
  | "audio_device" => .null
  | "audio_device_name" => .null
  | "sample_rate" => .num 16000
  | "monitor_audio" => .bool false
  | "noise_reduction" => .bool false
  | "model" => .str "base"
  | "device" => .str "cpu"
  | "language" => .str "auto"
  | "task" => .str "transcribe"
  | "temperature" => .num 0
  | "record_hotkey" => .str "Ctrl+Shift+R"
  | "window_hotkey" => .str "Ctrl+Shift+W"
  | "autostart" => .bool false
  | "system_tray" => .bool true
  | "theme" => .str "default"
  | "auto_cleanup" => .bool true
  | "window_geometry" => .str "800x600"
  | "window_position" => .null
  | _ => .null

/-- The in-memory effect of `save_settings`: entries with keys outside the
schema are dropped with a warning, the surviving entries update the settings
dictionary in order. -/
def applySettings (settings : String → JVal) (m : List (String × JVal)) :
    String → JVal :=
  (m.filter (fun p => schemaKeys.contains p.1)).foldl
    (fun f p => Function.update f p.1 p.2) settings

/-- `ConfigManager.save_settings` (`config_manager.py:91-124`) with an
explicit settings argument: validates and applies the entries, then
serializes the whole settings dictionary (one entry per schema key, in
schema order) to the configuration file.  Returns (in-memory settings,
written file). -/
def save_settings (settings : String → JVal) (m : List (String × JVal)) :
    (String → JVal) × List (String × JVal) :=
  (applySettings settings m,
   schemaKeys.map (fun k => (k, applySettings settings m k)))

/-- `ConfigManager.load_settings` (`config_manager.py:62-89`) of a fresh
instance: with no file present the defaults stand; otherwise every file
entry whose key belongs to the schema overrides the default, unknown keys
are ignored with a warning. -/
def load_settings (file : Option (List (String × JVal))) : String → JVal :=
  match file with
  | none => defaults
  | some entries =>
    entries.foldl
      (fun f p => if schemaKeys.contains p.1 then Function.update f p.1 p.2 else f)
      defaults

end Config

/-- A three-row database instance used by the statistics claim: durations
1.0, 2.0, 3.0 with languages "en", "en", "fr". -/
def statsExampleDb : DB.Database :=
  [⟨"r1", 1000, "a.wav", "alpha", 1, "en", "base", 100, ""⟩,
   ⟨"r2", 2000, "b.wav", "beta", 2, "en", "base", 200, ""⟩,
   ⟨"r3", 3000, "c.wav", "gamma", 3, "fr", "small", 300, ""⟩]

/-! ## Theorems -/

/-- C9: for every recording id that matches no stored row, `update_recording`
returns true with the table unchanged, while `delete_recording` — which does
inspect the affected-row count — returns false there; so a true result of
`update_recording` does not imply the recording exists. -/
theorem C9_update_succeeds_without_matching_row (db : DB.Database)
    (rec : DB.Recording) (h : ∀ r ∈ db, r.id ≠ rec.id) :
    DB.update_recording db rec = (db, true) ∧
    (DB.delete_recording db rec.id).2 = false := by
  refine ⟨?_, ?_⟩
  · unfold DB.update_recording
    have hmap : db.map (fun r => if r.id = rec.id then rec else r) = db := by
      induction db with
      | nil => rfl
      | cons a t ih =>
        have ha : a.id ≠ rec.id := h a (by simp)
        simp only [List.map_cons, if_neg ha]
        rw [ih (fun r hr => h r (by simp [hr]))]
    rw [hmap]
  · unfold DB.delete_recording
    have hcount : db.countP (fun r => decide (r.id = rec.id)) = 0 := by
      rw [List.countP_eq_zero]
      intro r hr
      simpa using h r hr
    simp [hcount]

/-- C9 witness at a concrete database and a recording with an unmatched id. -/
theorem C9_witness :
    (∀ r ∈ [(⟨"a", 0, "f", "t", 1, "en", "base", 1, ""⟩ : DB.Recording)],
        r.id ≠ "b") ∧
    (DB.update_recording
        [(⟨"a", 0, "f", "t", 1, "en", "base", 1, ""⟩ : DB.Recording)]
        ⟨"b", 0, "g", "u", 2, "fr", "base", 2, ""⟩
      = ([⟨"a", 0, "f", "t", 1, "en", "base", 1, ""⟩], true) ∧
      (DB.delete_recording
          [(⟨"a", 0, "f", "t", 1, "en", "base", 1, ""⟩ : DB.Recording)]
          "b").2 = false) :=
  ⟨by decide,
   C9_update_succeeds_without_matching_row
     [⟨"a", 0, "f", "t", 1, "en", "base", 1, ""⟩]
     ⟨"b", 0, "g", "u", 2, "fr", "base", 2, ""⟩ (by decide)⟩

/-- C10: `get_all_recordings` and `search_recordings` apply the limit only
when it is truthy; `limit = 0` returns exactly what passing no limit
returns. -/
theorem C10_zero_limit_returns_all (db : DB.Database) (offset : Nat)
    (q : String) (lang : Option String) (dateFrom dateTo : Option Int) :
    DB.get_all_recordings db (some 0) offset
      = DB.get_all_recordings db none offset ∧
    DB.search_recordings db q lang dateFrom dateTo (some 0)
      = DB.search_recordings db q lang dateFrom dateTo none := by
  constructor
  · simp [DB.get_all_recordings]
  · simp [DB.search_recordings]

/-- C7: while `is_transcribing` is set, `change_model` and `change_device`
return false and leave the model reference, the model name and the device
selection untouched (the whole state is unchanged). -/
theorem C7_no_swap_while_transcribing (s : Transcription.TState)
    (name device : String) (h : s.is_transcribing = true) :
    Transcription.change_model s name = (s, false) ∧
    Transcription.change_device s device = (s, false) := by
  constructor
  · unfold Transcription.change_model
    rw [if_pos h]
  · unfold Transcription.change_device
    rw [if_pos h]

/-- C7 witness at a concrete transcribing state. -/
theorem C7_witness :
    ((⟨some "base", "base", "cpu", true, 0⟩ : Transcription.TState).is_transcribing
        = true) ∧
    (Transcription.change_model ⟨some "base", "base", "cpu", true, 0⟩ "small"
        = (⟨some "base", "base", "cpu", true, 0⟩, false) ∧
      Transcription.change_device ⟨some "base", "base", "cpu", true, 0⟩ "cuda"
        = (⟨some "base", "base", "cpu", true, 0⟩, false)) :=
  ⟨rfl,
   C7_no_swap_while_transcribing ⟨some "base", "base", "cpu", true, 0⟩
     "small" "cuda" rfl⟩

/-- C4 counterexample: a successful transcription from a valid idle state
leaves `progress = 1.0`, not zero — the cleanup step clears the flag but
does not reset the progress value. -/
theorem C4_counterexample :
    (Transcription.transcribe_audio_async
        ⟨some "base", "base", "cpu", false, 37 / 100⟩
        (.ok "hello")).2.progress = 1 ∧
    (1 : ℚ) ≠ 0 := by
  constructor
  · rfl
  · norm_num

/-- C4 (amended): whether the transcription succeeds or fails, the cleanup
step clears `is_transcribing`; progress is not reset there — it ends at 1.0
on success and at 0.0 on failure (where it was set when the operation
started). -/
theorem C4_cleanup_clears_flag (s : Transcription.TState)
    (result : Except String String) (h1 : s.is_transcribing = false)
    (h2 : s.model.isSome = true) :
    (Transcription.transcribe_audio_async s result).2.is_transcribing = false ∧
    (∀ t, result = .ok t →
      (Transcription.transcribe_audio_async s result).2.progress = 1) ∧
    (∀ e, result = .error e →
      (Transcription.transcribe_audio_async s result).2.progress = 0) := by
  have h2' : s.model.isNone = false := by
    cases hm : s.model with
    | none => rw [hm] at h2; simp at h2
    | some v => rfl
  unfold Transcription.transcribe_audio_async
  rw [h1]
  simp only [Bool.false_eq_true, if_false, h2', if_false]
  cases result with
  | ok t =>
    refine ⟨rfl, ?_, ?_⟩
    · intro u hu
      rfl
    · intro e he
      cases he
  | error e =>
    refine ⟨rfl, ?_, ?_⟩
    · intro u hu
      cases hu
    · intro e' he
      rfl

/-- C4 witness at a concrete idle state with a loaded model, for both a
successful and a failing outcome. -/
theorem C4_witness :
    ((⟨some "base", "base", "cpu", false, 0⟩ : Transcription.TState).is_transcribing
        = false ∧
      (⟨some "base", "base", "cpu", false, 0⟩ : Transcription.TState).model.isSome
        = true) ∧
    ((Transcription.transcribe_audio_async
        ⟨some "base", "base", "cpu", false, 0⟩
        (.error "boom")).2.is_transcribing = false ∧
      (∀ t, (.error "boom" : Except String String) = .ok t →
        (Transcription.transcribe_audio_async
          ⟨some "base", "base", "cpu", false, 0⟩ (.error "boom")).2.progress = 1) ∧
      (∀ e, (.error "boom" : Except String String) = .error e →
        (Transcription.transcribe_audio_async
          ⟨some "base", "base", "cpu", false, 0⟩ (.error "boom")).2.progress = 0)) :=
  ⟨⟨rfl, rfl⟩,
   C4_cleanup_clears_flag ⟨some "base", "base", "cpu", false, 0⟩
     (.error "boom") rfl rfl⟩

/-- Each 16-bit sample contributes exactly two bytes of PCM payload. -/
theorem wavPcmBytes_length (d : List Int) :
    (Audio.wavPcmBytes d).length = 2 * d.length := by
  induction d with
  | nil => rfl
  | cons a t ih =>
    simp only [Audio.wavPcmBytes, List.flatMap_cons] at *
    simp only [List.length_append, ih, List.length_cons]
    simp [Audio.int16Bytes]
    omega

/-- C6: with a recording active, `stop_recording` returns absent whenever
the accumulated sample count over 16000 is below half a second, and
otherwise saves the accumulated samples as the recording, whose 16-bit mono
PCM payload is exactly two bytes per sample (`seconds × 16000 × 2` bytes). -/
theorem C6_minimum_duration_gate (data : List Int) :
    ((data.length : ℚ) / 16000 < 1 / 2 →
      Audio.stop_recording true data = none) ∧
    (1 / 2 ≤ (data.length : ℚ) / 16000 →
      Audio.stop_recording true data = some data ∧
      (Audio.wavPcmBytes data).length = 2 * data.length) := by
  constructor
  · intro h
    unfold Audio.stop_recording
    by_cases he : data.isEmpty
    · simp [he]
    · simp only [Bool.not_true, Bool.false_eq_true, if_false, he]
      rw [if_pos]
      exact h
  · intro h
    have hlen : 8000 ≤ data.length := by
      have h16 : (0 : ℚ) < 16000 := by norm_num
      rw [le_div_iff₀ h16] at h
      have : (8000 : ℚ) ≤ (data.length : ℚ) := by linarith
      exact_mod_cast this
    have hne : data.isEmpty = false := by
      cases data with
      | nil => simp at hlen
      | cons a t => rfl
    refine ⟨?_, wavPcmBytes_length data⟩
    unfold Audio.stop_recording
    simp only [Bool.not_true, Bool.false_eq_true, if_false, hne]
    rw [if_neg]
    exact not_lt.mpr h

/-- C6 witness: 0.4 seconds (6400 samples) is discarded; 0.6 seconds
(9600 samples) is saved with a 19200-byte PCM payload. -/
theorem C6_witness :
    (Audio.stop_recording true (List.replicate 6400 0) = none) ∧
    (Audio.stop_recording true (List.replicate 9600 0)
        = some (List.replicate 9600 0) ∧
      (Audio.wavPcmBytes (List.replicate 9600 0)).length
        = 2 * (List.replicate 9600 (0 : Int)).length) :=
  ⟨(C6_minimum_duration_gate (List.replicate 6400 0)).1
     (by rw [List.length_replicate]; norm_num),
   (C6_minimum_duration_gate (List.replicate 9600 0)).2
     (by rw [List.length_replicate]; norm_num)⟩

/-- C1 counterexample: at noon of day 100 (`now = 100·86400 + 43200` s), a
recording timestamped exactly 30 days and 1 second before `now` is NOT
deleted by `cleanup_old_recordings(30)` — its timestamp (`70·86400 + 43199`)
is not before the cutoff `70·86400` — and the deleted count is 0, contrary
to the claim that it is deleted for every current time. -/
theorem C1_counterexample :
    DB.cleanup_old_recordings (100 * 86400 + 43200) 30
        [⟨"a", 100 * 86400 + 43200 - (30 * 86400 + 1), "f", "t", 1, "en",
          "base", 10, ""⟩]
      = ([⟨"a", 100 * 86400 + 43200 - (30 * 86400 + 1), "f", "t", 1, "en",
          "base", 10, ""⟩], 0) := by
  decide

/-- C1 (amended): `cleanup_old_recordings(days)` deletes exactly the rows
whose timestamp is strictly before today-at-midnight minus `days` days and
returns their count; in particular a recording timestamped 30 days and
1 second before today at midnight is deleted by `cleanup_old_recordings(30)`
and one timestamped exactly 29 days before "now" is retained, for every
current time. -/
theorem C1_cleanup_boundary (now days : Int) (db : DB.Database) :
    ((DB.cleanup_old_recordings now days db).1
      = db.filter (fun r =>
          decide (now - now % 86400 - days * 86400 ≤ r.timestamp))) ∧
    ((DB.cleanup_old_recordings now days db).2
      = (db.countP (fun r =>
          decide (r.timestamp < now - now % 86400 - days * 86400)) : Int)) ∧
    (∀ r ∈ db, r.timestamp = now - now % 86400 - 30 * 86400 - 1 →
      r ∉ (DB.cleanup_old_recordings now 30 db).1) ∧
    (∀ r ∈ db, r.timestamp = now - 29 * 86400 →
      r ∈ (DB.cleanup_old_recordings now 30 db).1) := by
  refine ⟨?_, rfl, ?_, ?_⟩
  · unfold DB.cleanup_old_recordings
    simp only []
    apply List.filter_congr
    intro r _
    by_cases h : r.timestamp < now - now % 86400 - days * 86400
    · simp [h, not_le.mpr h]
    · simp [h, not_lt.mp h]
  · intro r hr ht
    unfold DB.cleanup_old_recordings
    simp only [List.mem_filter, not_and]
    intro _
    simp only [Bool.not_eq_true', decide_eq_false_iff_not, not_not]
    omega
  · intro r hr ht
    unfold DB.cleanup_old_recordings
    have hmod : 0 ≤ now % 86400 := Int.emod_nonneg now (by norm_num)
    simp only [List.mem_filter]
    refine ⟨hr, ?_⟩
    simp only [Bool.not_eq_true', decide_eq_false_iff_not, not_lt]
    omega

/-- C1 witness: noon of day 1; the row stamped 30 days and 1 second before
that midnight is deleted, the row stamped 29 days before "now" is kept. -/
theorem C1_witness :
    ((⟨"d", 86400 + 43200 - (86400 + 43200) % 86400 - 30 * 86400 - 1, "f",
        "t", 1, "en", "base", 10, ""⟩ : DB.Recording)
        ∈ [(⟨"d", 86400 + 43200 - (86400 + 43200) % 86400 - 30 * 86400 - 1,
              "f", "t", 1, "en", "base", 10, ""⟩ : DB.Recording),
           ⟨"k", 86400 + 43200 - 29 * 86400, "f", "t", 1, "en", "base", 10,
              ""⟩]) ∧
    ((⟨"d", 86400 + 43200 - (86400 + 43200) % 86400 - 30 * 86400 - 1, "f",
        "t", 1, "en", "base", 10, ""⟩ : DB.Recording)
        ∉ (DB.cleanup_old_recordings (86400 + 43200) 30
            [⟨"d", 86400 + 43200 - (86400 + 43200) % 86400 - 30 * 86400 - 1,
                "f", "t", 1, "en", "base", 10, ""⟩,
             ⟨"k", 86400 + 43200 - 29 * 86400, "f", "t", 1, "en", "base", 10,
                ""⟩]).1) ∧
    ((⟨"k", 86400 + 43200 - 29 * 86400, "f", "t", 1, "en", "base", 10,
        ""⟩ : DB.Recording)
        ∈ (DB.cleanup_old_recordings (86400 + 43200) 30
            [⟨"d", 86400 + 43200 - (86400 + 43200) % 86400 - 30 * 86400 - 1,
                "f", "t", 1, "en", "base", 10, ""⟩,
             ⟨"k", 86400 + 43200 - 29 * 86400, "f", "t", 1, "en", "base", 10,
                ""⟩]).1) :=
  ⟨by decide,
   (C1_cleanup_boundary (86400 + 43200) 30
      [⟨"d", 86400 + 43200 - (86400 + 43200) % 86400 - 30 * 86400 - 1, "f",
          "t", 1, "en", "base", 10, ""⟩,
       ⟨"k", 86400 + 43200 - 29 * 86400, "f", "t", 1, "en", "base", 10,
          ""⟩]).2.2.1 _ (by decide) (by decide),
   (C1_cleanup_boundary (86400 + 43200) 30
      [⟨"d", 86400 + 43200 - (86400 + 43200) % 86400 - 30 * 86400 - 1, "f",
          "t", 1, "en", "base", 10, ""⟩,
       ⟨"k", 86400 + 43200 - 29 * 86400, "f", "t", 1, "en", "base", 10,
          ""⟩]).2.2.2 _ (by decide) (by decide)⟩

/-- Channel averaging halves the sample count (each output sample consumes
one interleaved stereo pair). -/
theorem channelMeans_length : ∀ l : List Int,
    (Audio.channelMeans l).length = l.length / 2
  | [] => by simp [Audio.channelMeans]
  | [_] => by simp [Audio.channelMeans]
  | a :: b :: rest => by
    simp only [Audio.channelMeans, List.length_cons,
      channelMeans_length rest]
    omega

/-- `linspace` produces exactly the requested number of points. -/
theorem linspace_length (stop : ℚ) (num : Nat) :
    (Audio.linspace stop num).length = num := by
  unfold Audio.linspace
  split
  · next h => simp [h]
  · split
    · next h => simp [h]
    · rw [List.length_map, List.length_range]

/-- For a nonnegative rational, truncation toward zero agrees with the
floor. -/
theorem ratTrunc_eq_floor (q : ℚ) (hq : 0 ≤ q) : ratTrunc q = ⌊q⌋ := by
  unfold ratTrunc
  rw [Rat.floor_def]
  exact Int.tdiv_eq_ediv (Rat.num_nonneg.mpr hq) (Int.natCast_nonneg q.den)

/-- When the rate differs from the target and the computed new length is
positive, resampling produces exactly
`int(len · SAMPLE_RATE / workingRate)` samples. -/
theorem resampleChunk_length (rate : Nat) (chunk : List Int)
    (h : rate ≠ Audio.SAMPLE_RATE)
    (hpos : 0 < (ratTrunc ((chunk.length : ℚ) *
      ((Audio.SAMPLE_RATE : ℚ) / (rate : ℚ)))).toNat) :
    (Audio.resampleChunk rate chunk).length
      = (ratTrunc ((chunk.length : ℚ) *
          ((Audio.SAMPLE_RATE : ℚ) / (rate : ℚ)))).toNat := by
  unfold Audio.resampleChunk
  rw [if_neg h, if_pos hpos, List.length_map, linspace_length]

/-- C2 counterexample: a 1024-sample mono chunk captured at a negotiated
44100 Hz resamples to `int(1024 · 16000 / 44100) = 371` samples, whereas the
claimed formula `round(len · target_rate / negotiated_rate)` gives 372. -/
theorem C2_counterexample :
    (Audio.convertChunk 1 44100 (List.replicate 1024 0)).length = 371 ∧
    round ((1024 : ℚ) * 16000 / 44100) = 372 ∧ (371 : Nat) ≠ 372 := by
  refine ⟨?_, ?_, by norm_num⟩
  · have hcond : ¬((1 : Nat) = 2 ∧ Audio.CHANNELS = 1) := by
      intro hc
      exact absurd hc.1 (by norm_num)
    have hlen : (List.replicate 1024 (0 : Int)).length = 1024 := by
      rw [List.length_replicate]
    have hval : ratTrunc (((1024 : Nat) : ℚ) *
        ((Audio.SAMPLE_RATE : ℚ) / ((44100 : Nat) : ℚ))) = 371 := by
      rw [show ((1024 : Nat) : ℚ) * ((Audio.SAMPLE_RATE : ℚ) /
            ((44100 : Nat) : ℚ)) = 163840 / 441 by
          norm_num [Audio.SAMPLE_RATE]]
      rw [ratTrunc_eq_floor _ (by norm_num), Int.floor_eq_iff]
      norm_num
    unfold Audio.convertChunk
    rw [if_neg hcond]
    rw [resampleChunk_length 44100 _ (by decide)]
    · rw [hlen, hval]
      rfl
    · rw [hlen, hval]
      norm_num
  · rw [round_eq, Int.floor_eq_iff]
    norm_num

/-- C2 (amended): per-chunk processing averages each stereo sample pair when
the working configuration is 2 channels against the mono target, and when
the negotiated rate differs from 16000 Hz it resamples by linear
interpolation to `new_length = int(len × target_rate / negotiated_rate)`
samples (truncation, not rounding) at positions evenly spaced across the
chunk; in particular every 4800-frame (9600-value) stereo chunk at 48000 Hz
converts to exactly 1600 mono samples. -/
theorem C2_chunk_conversion (chunk : List Int) (h : chunk.length = 9600) :
    ((Audio.convertChunk 2 48000 chunk).length = 1600) ∧
    (∀ (a b : Int) (rest : List Int),
      Audio.channelMeans (a :: b :: rest)
        = ((a : ℚ) + b) / 2 :: Audio.channelMeans rest) ∧
    (∀ (c : List Int) (rate : Nat), rate ≠ Audio.SAMPLE_RATE →
      0 < (ratTrunc ((c.length : ℚ) *
        ((Audio.SAMPLE_RATE : ℚ) / (rate : ℚ)))).toNat →
      (Audio.resampleChunk rate c).length
        = (ratTrunc ((c.length : ℚ) *
            ((Audio.SAMPLE_RATE : ℚ) / (rate : ℚ)))).toNat) := by
  refine ⟨?_, fun a b rest => rfl, fun c rate h1 h2 => resampleChunk_length rate c h1 h2⟩
  have hcond : ((2 : Nat) = 2 ∧ Audio.CHANNELS = 1) := ⟨rfl, rfl⟩
  have hm : ((Audio.channelMeans chunk).map ratTrunc).length = 4800 := by
    rw [List.length_map, channelMeans_length, h]
  have hval : ratTrunc (((4800 : Nat) : ℚ) *
      ((Audio.SAMPLE_RATE : ℚ) / ((48000 : Nat) : ℚ))) = 1600 := by
    rw [show ((4800 : Nat) : ℚ) * ((Audio.SAMPLE_RATE : ℚ) /
          ((48000 : Nat) : ℚ)) = 1600 by norm_num [Audio.SAMPLE_RATE]]
    rw [ratTrunc_eq_floor _ (by norm_num)]
    norm_num
  unfold Audio.convertChunk
  rw [if_pos hcond]
  rw [resampleChunk_length 48000 _ (by decide)]
  · rw [hm, hval]
    rfl
  · rw [hm, hval]
    norm_num

/-- C2 witness: the all-zero 9600-value stereo chunk. -/
theorem C2_witness :
    ((List.replicate 9600 (0 : Int)).length = 9600) ∧
    (((Audio.convertChunk 2 48000 (List.replicate 9600 0)).length = 1600) ∧
      (∀ (a b : Int) (rest : List Int),
        Audio.channelMeans (a :: b :: rest)
          = ((a : ℚ) + b) / 2 :: Audio.channelMeans rest) ∧
      (∀ (c : List Int) (rate : Nat), rate ≠ Audio.SAMPLE_RATE →
        0 < (ratTrunc ((c.length : ℚ) *
          ((Audio.SAMPLE_RATE : ℚ) / (rate : ℚ)))).toNat →
        (Audio.resampleChunk rate c).length
          = (ratTrunc ((c.length : ℚ) *
              ((Audio.SAMPLE_RATE : ℚ) / (rate : ℚ)))).toNat)) :=
  ⟨by rw [List.length_replicate],
   C2_chunk_conversion (List.replicate 9600 0) (by rw [List.length_replicate])⟩

/-- One unrecognized token makes the whole token traversal fail. -/
theorem normalizeKeysAux_eq_none (keys : List String)
    (h : ∃ k ∈ keys, Hotkeys.normalizeKey k = none) :
    Hotkeys.normalizeKeysAux keys = none := by
  induction keys with
  | nil => simp at h
  | cons a t ih =>
    obtain ⟨k, hk, hnone⟩ := h
    unfold Hotkeys.normalizeKeysAux
    rcases List.mem_cons.mp hk with rfl | hkt
    · rw [hnone]
    · cases hna : Hotkeys.normalizeKey a with
      | none => rfl
      | some v => rw [ih ⟨k, hkt, hnone⟩]

/-- When every token normalizes, the traversal succeeds and preserves the
token count. -/
theorem normalizeKeysAux_eq_some (keys : List String)
    (h : ∀ k ∈ keys, (Hotkeys.normalizeKey k).isSome) :
    ∃ l, Hotkeys.normalizeKeysAux keys = some l ∧ l.length = keys.length := by
  induction keys with
  | nil => exact ⟨[], rfl, rfl⟩
  | cons a t ih =>
    obtain ⟨v, hv⟩ := Option.isSome_iff_exists.mp (h a (by simp))
    obtain ⟨l, hl, hlen⟩ := ih (fun k hk => h k (List.mem_cons_of_mem a hk))
    refine ⟨v :: l, ?_, by simp [hlen]⟩
    unfold Hotkeys.normalizeKeysAux
    rw [hv, hl]

/-- C3 counterexample: the token `"windows"` — which the claim's synonym
table sends to `cmd` — is rejected by the code's `_normalize_keys`, so a
registration containing it fails, whereas the spec-worded table accepts
it. -/
theorem C3_counterexample :
    Hotkeys.register_hotkey [] "toggle_recording" ["windows"] = ([], false) ∧
    Hotkeys.specKeyMapping "windows" = some "cmd" ∧
    Hotkeys.normalizeKeys ["windows"] = [] := by
  refine ⟨?_, by decide, ?_⟩ <;> decide

/-- C3 (amended): `register_hotkey` normalizes tokens case-insensitively to
the canonical set — `ctrl`/`control`→`ctrl`, `shift`→`shift`, `alt`→`alt`,
`win`/`cmd`/`super`→`cmd` (but NOT `windows`, which is rejected), the named
specials, and single alphanumeric characters lower-cased — and any
unrecognized token (or an empty token list) makes the whole registration
fail with nothing registered; `["Ctrl", "SHIFT", "r"]` normalizes to
`[ctrl, shift, r]` and `["ctrl", "foo"]` fails entirely. -/
theorem C3_hotkey_normalization (hk : Hotkeys.HotkeyTable) (name : String)
    (keys : List String) :
    Hotkeys.normalizeKeys ["Ctrl", "SHIFT", "r"] = ["ctrl", "shift", "r"] ∧
    Hotkeys.register_hotkey hk name ["ctrl", "foo"] = (hk, false) ∧
    ((∃ k ∈ keys, Hotkeys.normalizeKey k = none) →
      Hotkeys.register_hotkey hk name keys = (hk, false)) ∧
    (keys ≠ [] → (∀ k ∈ keys, (Hotkeys.normalizeKey k).isSome) →
      (Hotkeys.register_hotkey hk name keys).2 = true) ∧
    (Hotkeys.normalizeKey "control" = some "ctrl" ∧
      Hotkeys.normalizeKey "WIN" = some "cmd" ∧
      Hotkeys.normalizeKey "super" = some "cmd" ∧
      Hotkeys.normalizeKey "windows" = none ∧
      Hotkeys.normalizeKey "Return" = some "enter" ∧
      Hotkeys.normalizeKey "ESC" = some "esc" ∧
      Hotkeys.normalizeKey "Del" = some "delete" ∧
      Hotkeys.normalizeKey "7" = some "7" ∧
      Hotkeys.normalizeKey "R" = some "r" ∧
      Hotkeys.normalizeKey "+" = none) := by
  refine ⟨by decide, ?_, ?_, ?_, by decide, by decide, by decide,
    by decide, by decide, by decide, by decide, by decide, by decide,
    by decide⟩
  · unfold Hotkeys.register_hotkey
    rw [show Hotkeys.normalizeKeys ["ctrl", "foo"] = [] from by decide]
    rfl
  · intro hex
    unfold Hotkeys.register_hotkey Hotkeys.normalizeKeys
    rw [normalizeKeysAux_eq_none keys hex]
    rfl
  · intro hne hall
    obtain ⟨l, hl, hlen⟩ := normalizeKeysAux_eq_some keys hall
    unfold Hotkeys.register_hotkey Hotkeys.normalizeKeys
    rw [hl]
    have hle : l.isEmpty = false := by
      cases l with
      | nil =>
        cases keys with
        | nil => exact absurd rfl hne
        | cons b bs => simp at hlen
      | cons x xs => rfl
    simp [hle]

/-- C3 witness: a single normalizable token registers successfully. -/
theorem C3_witness :
    ((["x"] : List String) ≠ []) ∧
    (∀ k ∈ (["x"] : List String), (Hotkeys.normalizeKey k).isSome) ∧
    (Hotkeys.register_hotkey [] "t" ["x"]).2 = true :=
  ⟨by decide, by decide,
   (C3_hotkey_normalization [] "t" ["x"]).2.2.2.1 (by decide) (by decide)⟩

/-- A fold of dictionary updates at keys all different from `k` leaves the
value at `k` unchanged. -/
theorem foldl_update_preserve (f : String → Config.JVal)
    (m : List (String × Config.JVal)) (k : String)
    (h : ∀ p ∈ m, p.1 ≠ k) :
    (m.foldl (fun f p => Function.update f p.1 p.2) f) k = f k := by
  induction m generalizing f with
  | nil => rfl
  | cons a t ih =>
    rw [List.foldl_cons, ih _ (fun p hp => h p (List.mem_cons_of_mem a hp))]
    exact Function.update_noteq (Ne.symm (h a (by simp))) a.2 f

/-- Reading back a serialized settings dictionary through the guarded merge
of `load_settings`: a schema key gets the serialized value, anything else
keeps the base value. -/
theorem foldl_load_lookup (g : String → Config.JVal) (ks : List String)
    (f : String → Config.JVal) (k : String) :
    ((ks.map (fun a => (a, g a))).foldl
        (fun f p =>
          if Config.schemaKeys.contains p.1 then Function.update f p.1 p.2
          else f) f) k
      = if k ∈ ks ∧ k ∈ Config.schemaKeys then g k else f k := by
  induction ks generalizing f with
  | nil => simp
  | cons a t ih =>
    rw [List.map_cons, List.foldl_cons, ih]
    by_cases h3 : a = k
    · subst h3
      by_cases h2 : a ∈ Config.schemaKeys
      · by_cases h1 : a ∈ t
        · simp [h1, h2]
        · simp [h1, h2, Function.update_same]
      · simp [h2]
    · have h3' : ¬k = a := fun he => h3 he.symm
      by_cases h2 : k ∈ Config.schemaKeys
      · by_cases h1 : k ∈ t
        · simp [h1, h2, h3']
        · by_cases h4 : a ∈ Config.schemaKeys
          · simp [h1, h2, h3', h4, Function.update_noteq h3']
          · simp [h1, h2, h3', h4]
      · by_cases h4 : a ∈ Config.schemaKeys
        · simp [h2, h3', h4, Function.update_noteq h3']
        · simp [h2, h3', h4]

/-- Unfolding `load_settings` on a present file. -/
theorem load_settings_some (entries : List (String × Config.JVal)) :
    Config.load_settings (some entries)
      = entries.foldl
          (fun f p =>
            if Config.schemaKeys.contains p.1 then Function.update f p.1 p.2
            else f)
          Config.defaults := rfl

/-- C5: for a settings map whose keys all belong to the schema, `Save` into
a default-initialized store followed by a fresh `Load` of the written file
gives back exactly the saved in-memory state, and keys absent from the input
keep their documented default values. -/
theorem C5_round_trip (m : List (String × Config.JVal))
    (hm : ∀ p ∈ m, Config.schemaKeys.contains p.1 = true) (k : String) :
    Config.load_settings (some (Config.save_settings Config.defaults m).2) k
      = (Config.save_settings Config.defaults m).1 k ∧
    (Config.schemaKeys.contains k = true → (∀ p ∈ m, p.1 ≠ k) →
      (Config.save_settings Config.defaults m).1 k = Config.defaults k) := by
  have hfilter : m.filter (fun p => Config.schemaKeys.contains p.1) = m :=
    List.filter_eq_self.mpr hm
  constructor
  · show Config.load_settings
        (some (Config.schemaKeys.map
          (fun k => (k, Config.applySettings Config.defaults m k)))) k
      = Config.applySettings Config.defaults m k
    rw [load_settings_some, foldl_load_lookup]
    by_cases hk : k ∈ Config.schemaKeys
    · rw [if_pos ⟨hk, hk⟩]
    · rw [if_neg (fun hc => hk hc.2)]
      unfold Config.applySettings
      rw [hfilter]
      rw [foldl_update_preserve Config.defaults m k
        (fun p hp he => hk (he ▸ List.elem_iff.mp (hm p hp)))]
  · intro hk hnone
    show Config.applySettings Config.defaults m k = Config.defaults k
    unfold Config.applySettings
    rw [hfilter]
    exact foldl_update_preserve Config.defaults m k hnone

/-- C5 witness: saving `{model: "small"}` and reloading; the key `"theme"`
is absent from the input and keeps its default. -/
theorem C5_witness :
    (∀ p ∈ [("model", Config.JVal.str "small")],
      Config.schemaKeys.contains p.1 = true) ∧
    (Config.load_settings
        (some (Config.save_settings Config.defaults
          [("model", Config.JVal.str "small")]).2) "theme"
      = (Config.save_settings Config.defaults
          [("model", Config.JVal.str "small")]).1 "theme" ∧
     (Config.schemaKeys.contains "theme" = true →
      (∀ p ∈ [("model", Config.JVal.str "small")], p.1 ≠ "theme") →
      (Config.save_settings Config.defaults
          [("model", Config.JVal.str "small")]).1 "theme"
        = Config.defaults "theme")) :=
  ⟨by decide,
   C5_round_trip [("model", Config.JVal.str "small")] (by decide) "theme"⟩

/-- `SUM(duration)` coalesced through Python `or 0.0` equals the plain sum
(the empty set gives `NULL`, coalesced to 0, which is also the empty sum). -/
theorem pyOrQ_sqlSumQ (l : List ℚ) : DB.pyOrQ (DB.sqlSumQ l) 0 = l.sum := by
  unfold DB.pyOrQ DB.sqlSumQ
  cases l with
  | nil => rfl
  | cons a t =>
    simp only [List.isEmpty_cons, Bool.false_eq_true, if_false]
    by_cases h : (a :: t).sum = 0
    · rw [if_pos h, h]
    · rw [if_neg h]

/-- `SUM(file_size)` coalesced through Python `or 0` equals the plain sum. -/
theorem pyOrZ_sqlSumZ (l : List Int) : DB.pyOrZ (DB.sqlSumZ l) 0 = l.sum := by
  unfold DB.pyOrZ DB.sqlSumZ
  cases l with
  | nil => rfl
  | cons a t =>
    simp only [List.isEmpty_cons, Bool.false_eq_true, if_false]
    by_cases h : (a :: t).sum = 0
    · rw [if_pos h, h]
    · rw [if_neg h]

/-- `AVG(duration)` coalesced through Python `or 0.0` equals sum over count
on a nonempty set. -/
theorem pyOrQ_sqlAvg (l : List ℚ) (h : l ≠ []) :
    DB.pyOrQ (DB.sqlAvg l) 0 = l.sum / l.length := by
  unfold DB.pyOrQ DB.sqlAvg
  cases l with
  | nil => exact absurd rfl h
  | cons a t =>
    simp only [List.isEmpty_cons, Bool.false_eq_true, if_false]
    by_cases h0 : (a :: t).sum / ((a :: t).length : ℚ) = 0
    · rw [if_pos h0, h0]
    · rw [if_neg h0]

/-- The left fold of `min` lands on a list element and bounds every
element from below. -/
theorem foldl_min_spec (x : Int) (t : List Int) :
    t.foldl min x ∈ x :: t ∧ ∀ u ∈ x :: t, t.foldl min x ≤ u := by
  induction t generalizing x with
  | nil =>
    refine ⟨by simp, ?_⟩
    intro u hu
    rw [List.mem_singleton] at hu
    simp [hu]
  | cons a t ih =>
    rw [List.foldl_cons]
    obtain ⟨hmem, hle⟩ := ih (min x a)
    constructor
    · rcases List.mem_cons.mp hmem with he | ht
      · rcases min_choice x a with hx | ha
        · rw [he, hx]
          exact List.mem_cons_self _ _
        · rw [he, ha]
          exact List.mem_cons_of_mem _ (List.mem_cons_self _ _)
      · exact List.mem_cons_of_mem _ (List.mem_cons_of_mem _ ht)
    · intro u hu
      have hmin : t.foldl min (min x a) ≤ min x a :=
        hle _ (List.mem_cons_self _ _)
      rcases List.mem_cons.mp hu with he | hu'
      · rw [he]
        exact le_trans hmin (min_le_left x a)
      · rcases List.mem_cons.mp hu' with he2 | ht'
        · rw [he2]
          exact le_trans hmin (min_le_right x a)
        · exact hle u (List.mem_cons_of_mem _ ht')

/-- The left fold of `max` lands on a list element and bounds every
element from above. -/
theorem foldl_max_spec (x : Int) (t : List Int) :
    t.foldl max x ∈ x :: t ∧ ∀ u ∈ x :: t, u ≤ t.foldl max x := by
  induction t generalizing x with
  | nil =>
    refine ⟨by simp, ?_⟩
    intro u hu
    rw [List.mem_singleton] at hu
    simp [hu]
  | cons a t ih =>
    rw [List.foldl_cons]
    obtain ⟨hmem, hle⟩ := ih (max x a)
    constructor
    · rcases List.mem_cons.mp hmem with he | ht
      · rcases max_choice x a with hx | ha
        · rw [he, hx]
          exact List.mem_cons_self _ _
        · rw [he, ha]
          exact List.mem_cons_of_mem _ (List.mem_cons_self _ _)
      · exact List.mem_cons_of_mem _ (List.mem_cons_of_mem _ ht)
    · intro u hu
      have hmax : max x a ≤ t.foldl max (max x a) :=
        hle _ (List.mem_cons_self _ _)
      rcases List.mem_cons.mp hu with he | hu'
      · rw [he]
        exact le_trans (le_max_left x a) hmax
      · rcases List.mem_cons.mp hu' with he2 | ht'
        · rw [he2]
          exact le_trans (le_max_right x a) hmax
        · exact hle u (List.mem_cons_of_mem _ ht')

/-- C8: `get_statistics` reports the row count, summed duration, summed
file size, average duration (sum over count), the oldest and newest
timestamps, and language/model distributions that exclude empty values; on
the three-recording example database with durations 1.0, 2.0, 3.0 and
languages "en", "en", "fr" it reports `total_recordings = 3`,
`total_duration = 6.0`, `avg_duration = 2.0`, `languages = {en: 2, fr: 1}`. -/
theorem C8_statistics (db : DB.Database) (hne : db ≠ []) :
    (DB.get_statistics db).total_recordings = db.length ∧
    (DB.get_statistics db).total_duration
      = (db.map (fun r => r.duration)).sum ∧
    (DB.get_statistics db).total_file_size
      = (db.map (fun r => r.file_size)).sum ∧
    (DB.get_statistics db).avg_duration
      = (db.map (fun r => r.duration)).sum / (db.length : ℚ) ∧
    (∃ t, (DB.get_statistics db).oldest_recording = some t ∧
      t ∈ db.map (fun r => r.timestamp) ∧
      ∀ u ∈ db.map (fun r => r.timestamp), t ≤ u) ∧
    (∃ t, (DB.get_statistics db).newest_recording = some t ∧
      t ∈ db.map (fun r => r.timestamp) ∧
      ∀ u ∈ db.map (fun r => r.timestamp), u ≤ t) ∧
    (∀ lang, lang ≠ "" → (DB.get_statistics db).languages lang
      = db.countP (fun r => decide (r.language = lang))) ∧
    (DB.get_statistics db).languages "" = 0 ∧
    (∀ mdl, mdl ≠ "" → (DB.get_statistics db).models mdl
      = db.countP (fun r => decide (r.model_used = mdl))) ∧
    (DB.get_statistics db).models "" = 0 ∧
    ((DB.get_statistics statsExampleDb).total_recordings = 3 ∧
      (DB.get_statistics statsExampleDb).total_duration = 6 ∧
      (DB.get_statistics statsExampleDb).avg_duration = 2 ∧
      (DB.get_statistics statsExampleDb).languages "en" = 2 ∧
      (DB.get_statistics statsExampleDb).languages "fr" = 1 ∧
      (DB.get_statistics statsExampleDb).languages "" = 0) := by
  refine ⟨rfl, pyOrQ_sqlSumQ _, pyOrZ_sqlSumZ _, ?_, ?_, ?_, ?_, ?_, ?_, ?_,
    rfl, ?_, ?_, by decide, by decide, by decide⟩
  · have hmap : db.map (fun r => r.duration) ≠ [] :=
      fun hmn => hne (List.map_eq_nil_iff.mp hmn)
    rw [show (DB.get_statistics db).avg_duration
        = DB.pyOrQ (DB.sqlAvg (db.map (fun r => r.duration))) 0 from rfl]
    rw [pyOrQ_sqlAvg _ hmap, List.length_map]
  · cases db with
    | nil => exact absurd rfl hne
    | cons r rest =>
      obtain ⟨hm, hb⟩ :=
        foldl_min_spec r.timestamp (rest.map (fun r => r.timestamp))
      exact ⟨_, rfl, hm, hb⟩
  · cases db with
    | nil => exact absurd rfl hne
    | cons r rest =>
      obtain ⟨hm, hb⟩ :=
        foldl_max_spec r.timestamp (rest.map (fun r => r.timestamp))
      exact ⟨_, rfl, hm, hb⟩
  · intro lang hlang
    simp [DB.get_statistics, hlang]
  · simp [DB.get_statistics]
  · intro mdl hmdl
    simp [DB.get_statistics, hmdl]
  · simp [DB.get_statistics]
  · rw [show (DB.get_statistics statsExampleDb).total_duration
        = DB.pyOrQ (DB.sqlSumQ
            (statsExampleDb.map (fun r => r.duration))) 0 from rfl]
    rw [pyOrQ_sqlSumQ]
    norm_num [statsExampleDb]
  · rw [show (DB.get_statistics statsExampleDb).avg_duration
        = DB.pyOrQ (DB.sqlAvg
            (statsExampleDb.map (fun r => r.duration))) 0 from rfl]
    rw [pyOrQ_sqlAvg _ (by simp [statsExampleDb])]
    norm_num [statsExampleDb]

/-- C8 witness: the example database is nonempty, and the theorem applies
to it. -/
theorem C8_witness :
    statsExampleDb ≠ [] ∧
    (DB.get_statistics statsExampleDb).total_recordings
      = statsExampleDb.length :=
  ⟨by decide, (C8_statistics statsExampleDb (by decide)).1⟩

end OSW
